import Mathlib

/-!
Verification of the consumer-facing session coordination layer of the
perfetto tracing daemon, as specified in `spec.md` and declared in
`protos/perfetto/ipc/consumer_port.proto`.

The repository snapshot contains the IPC interface declaration
(`consumer_port.proto`) but not the service implementation
(`tracing_service_impl`), so the behavioural definitions below are shallow
embeddings modelled from the specification's words (each such definition's
doc comment starts with `Modelled from the spec:`).
-/

namespace Perfetto

/-- Error taxonomy of spec §7: `NotFound`, `Conflict`, `PermissionDenied`,
`InvalidState`, `Timeout`, `CloneFailed`. All surface as response-level
errors, never as transport faults. -/
inductive SvcError where
  | notFound
  | conflict
  | permissionDenied
  | invalidState
  | timeout
  | cloneFailed
  deriving DecidableEq, Repr, Fintype

/-- Session lifecycle states of spec §3/§4.1. The `Cloned` marker of §3 is
modelled as a boolean flag on the session (per §4.1 a clone "starts directly
in `Stopped` with a `Cloned` flag set"). -/
inductive SessionState where
  | Configuring
  | WaitingForExplicitStart
  | Started
  | Stopped
  | Detached
  deriving DecidableEq, Repr, Fintype

/-- Modelled from the spec: the salient fields of a `TraceConfig`
(spec §3 `config`, §4.1 `Create`): deferred start flag, duration, buffer
descriptors, optional unique session name and the bugreport score. -/
structure TraceConfig where
  deferredStart : Bool
  durationMs : Nat
  bufferSizesKb : List Nat
  uniqueSessionName : Option String
  bugreportScore : Nat
  deriving DecidableEq, Repr

/-- Modelled from the spec: a `TracingSession` entity (spec §3), the central
data-model record of the missing service implementation. -/
structure Session where
  id : Nat
  uuid : Nat
  ownerUid : Nat
  config : TraceConfig
  state : SessionState
  preDetach : SessionState
  buffers : List Nat
  detachKey : Option String
  bugreportScore : Nat
  uniqueSessionName : Option String
  cloned : Bool
  clonedFromId : Option Nat
  deriving DecidableEq, Repr

/-- Modelled from the spec: the `SessionRegistry` (spec §4.1), the single
source of truth for all known sessions, with monotonically issued ids and
uuids, a fresh-buffer-id counter, and a log of buffer ids handed back to the
external buffer-storage collaborator (used to model release-at-most-once). -/
structure Registry where
  sessions : List Session
  nextId : Nat
  nextUuid : Nat
  nextBuf : Nat
  releasedBuffers : List Nat
  deriving DecidableEq, Repr

/-! ## FlushCoordinator (spec §4.2) -/

/-- Result of one flush round. -/
inductive FlushResult where
  | success
  | timeout
  deriving DecidableEq, Repr

/-- One producer's acknowledgement behaviour for a flush round:
`ackTime = some u` means the producer acknowledges `u` milliseconds after the
round starts, `none` means it never acknowledges. -/
structure ProducerAck where
  pid : Nat
  ackTime : Option Nat
  deriving DecidableEq, Repr

/-- The producer acknowledged strictly before the deadline `t`. -/
def ackOnTime (t : Nat) (a : ProducerAck) : Bool :=
  match a.ackTime with
  | some u => decide (u < t)
  | none => false

/-- Modelled from the spec: the result of one flush round of the missing
`FlushCoordinator` (§4.2): success iff every producer of the roster
acknowledges before the timeout; a deadline hit first yields `timeout`.
A round with zero registered producers succeeds vacuously. -/
def flushResult (acks : List ProducerAck) (t : Nat) : FlushResult :=
  if acks.all (ackOnTime t) then .success else .timeout

/-- Erases every acknowledgement that arrives at or after the deadline `t`
(a "late" acknowledgement), keeping the roster itself. -/
def dropLateAcks (t : Nat) (acks : List ProducerAck) : List ProducerAck :=
  acks.map (fun a => if ackOnTime t a then a else { a with ackTime := none })

/-- Modelled from the spec: the per-session flush bookkeeping that survives a
round and forms the baseline of the next flush (§4.2): the count of completed
rounds and the last reported result. Late acknowledgements are deliberately
not recorded anywhere. -/
structure FlushState where
  completedFlushes : Nat
  lastResult : Option FlushResult
  deriving DecidableEq, Repr

/-- Modelled from the spec: running one flush round of the missing
`FlushCoordinator` against the session's flush bookkeeping (§4.2). -/
def runFlush (st : FlushState) (acks : List ProducerAck) (t : Nat) :
    FlushResult × FlushState :=
  let r := flushResult acks t
  (r, { completedFlushes := st.completedFlushes + 1, lastResult := some r })

/-! ## Session state machine (spec §4.1) -/

/-- The consumer operations that drive a single session's state machine. -/
inductive ConsumerOp where
  | enableTracing (deferred : Bool)
  | startTracing
  | disableTracing
  | detach
  | attach
  | flush
  | changeTraceConfig
  deriving DecidableEq, Repr, Fintype

/-- The per-session slice of state that the §4.1 state machine acts on. -/
structure MachineState where
  st : SessionState
  preDetach : SessionState
  cloned : Bool
  deriving DecidableEq, Repr, Fintype

/-- The directed edges of the §4.1 state machine. -/
def sessionEdges : List (SessionState × SessionState) :=
  [(.Configuring, .WaitingForExplicitStart),
   (.Configuring, .Started),
   (.WaitingForExplicitStart, .Started),
   (.Started, .Stopped),
   (.Started, .Detached),
   (.Detached, .Started),
   (.Stopped, .Detached),
   (.Detached, .Stopped)]

/-- `Edge a b` holds when `a → b` is an edge of the §4.1 state machine. -/
def Edge (a b : SessionState) : Prop := (a, b) ∈ sessionEdges

instance (a b : SessionState) : Decidable (Edge a b) := by
  unfold Edge; infer_instance

/-- Modelled from the spec: the single-session transition function of the
missing service implementation (§4.1). A legal edge is taken; any other
attempted transition reports `InvalidState` and leaves the state unchanged.
Cloned sessions are read-only: they reject `Flush`, `ChangeTraceConfig` and
`StartTracing`. -/
def machineStep (m : MachineState) (op : ConsumerOp) :
    MachineState × Option SvcError :=
  match op with
  | .enableTracing d =>
    match m.st with
    | .Configuring =>
      ({ m with st := if d then .WaitingForExplicitStart else .Started }, none)
    | _ => (m, some .invalidState)
  | .startTracing =>
    if m.cloned then (m, some .invalidState)
    else
      match m.st with
      | .WaitingForExplicitStart => ({ m with st := .Started }, none)
      | _ => (m, some .invalidState)
  | .disableTracing =>
    match m.st with
    | .Started => ({ m with st := .Stopped }, none)
    | _ => (m, some .invalidState)
  | .detach =>
    match m.st with
    | .Started => ({ m with st := .Detached, preDetach := .Started }, none)
    | .Stopped => ({ m with st := .Detached, preDetach := .Stopped }, none)
    | _ => (m, some .invalidState)
  | .attach =>
    match m.st with
    | .Detached => ({ m with st := m.preDetach }, none)
    | _ => (m, some .invalidState)
  | .flush =>
    if m.cloned then (m, some .invalidState) else (m, none)
  | .changeTraceConfig =>
    if m.cloned then (m, some .invalidState) else (m, none)

/-- The state-machine view of a session record. -/
def sessionMachine (s : Session) : MachineState :=
  { st := s.state, preDetach := s.preDetach, cloned := s.cloned }

/-- The invariant that `preDetach` only ever holds the state a `Detach` left
from (`Started` or `Stopped`); established by `machineStep` itself. -/
def PreDetachInv (m : MachineState) : Prop :=
  m.preDetach = .Started ∨ m.preDetach = .Stopped

instance (m : MachineState) : Decidable (PreDetachInv m) := by
  unfold PreDetachInv; infer_instance

/-! ## SessionRegistry operations (spec §4.1) -/

/-- Looks a session up by id (spec §4.1 `Lookup`). -/
def findSession (reg : Registry) (sid : Nat) : Option Session :=
  reg.sessions.find? (fun s => s.id == sid)

/-- Modelled from the spec: `Create` of the missing `SessionRegistry`
(§4.1): requires at least one buffer descriptor in the config, rejects a
duplicate `uniqueSessionName` among live non-cloned sessions, allocates
fresh monotonically issued id/uuid and fresh buffer ids, and places the new
session in `WaitingForExplicitStart` (deferred start) or `Started`. -/
def registryCreate (reg : Registry) (cfg : TraceConfig) (uid : Nat) :
    Except SvcError (Registry × Session) :=
  if cfg.bufferSizesKb.isEmpty then .error .invalidState
  else if reg.sessions.any (fun s =>
      !s.cloned && cfg.uniqueSessionName.isSome &&
      s.uniqueSessionName == cfg.uniqueSessionName) then
    .error .conflict
  else
    let bufs := (List.range cfg.bufferSizesKb.length).map (reg.nextBuf + ·)
    let s : Session :=
      { id := reg.nextId, uuid := reg.nextUuid, ownerUid := uid, config := cfg,
        state := if cfg.deferredStart then .WaitingForExplicitStart else .Started,
        preDetach := .Stopped, buffers := bufs, detachKey := none,
        bugreportScore := cfg.bugreportScore,
        uniqueSessionName := cfg.uniqueSessionName,
        cloned := false, clonedFromId := none }
    .ok ({ reg with
            sessions := reg.sessions ++ [s],
            nextId := reg.nextId + 1,
            nextUuid := reg.nextUuid + 1,
            nextBuf := reg.nextBuf + cfg.bufferSizesKb.length }, s)

/-- A session is eligible for bugreport selection: live, non-cloned and with
a strictly positive `bugreportScore` (spec §4.1 `PickBugreportCandidate`). -/
def eligibleForBugreport (s : Session) : Bool :=
  !s.cloned && decide (0 < s.bugreportScore)

/-- `r` beats-or-equals `s` in bugreport selection: a strictly greater score,
or an equal score and a later creation (ids are monotonically issued, spec
§3, so a larger id means more recently created). -/
def dominates (r s : Session) : Prop :=
  s.bugreportScore < r.bugreportScore ∨
    (s.bugreportScore = r.bugreportScore ∧ s.id ≤ r.id)

instance (r s : Session) : Decidable (dominates r s) := by
  unfold dominates; infer_instance

/-- One fold step of bugreport-candidate selection: a newly seen eligible
session replaces the current best iff it has a strictly greater score, or an
equal score and a later creation. -/
def pickStep (best : Option Session) (s : Session) : Option Session :=
  if eligibleForBugreport s then
    match best with
    | none => some s
    | some b =>
      if b.bugreportScore < s.bugreportScore ∨
          (b.bugreportScore = s.bugreportScore ∧ b.id < s.id) then some s
      else some b
  else best

/-- Modelled from the spec: `PickBugreportCandidate` of the missing
`SessionRegistry` (§4.1): selects the live, non-cloned session with the
highest `bugreportScore`, ties broken by most recently created; sessions
with score 0 are never eligible. -/
def pickBugreportCandidate (reg : Registry) : Option Session :=
  reg.sessions.foldl pickStep none

/-- Modelled from the spec: `ResolveUniqueName` of the missing
`SessionRegistry` (§4.1): scans only non-cloned sessions. -/
def resolveUniqueName (reg : Registry) (name : String) : Option Session :=
  reg.sessions.find? (fun s => !s.cloned && s.uniqueSessionName == some name)

/-- The session record after a successful `Detach(key)`: state goes to
`Detached`, the pre-detach state is remembered, the key is recorded. -/
def detachUpd (key : String) (t : Session) : Session :=
  { t with state := .Detached, preDetach := t.state, detachKey := some key }

/-- Modelled from the spec: `Detach` of the missing service implementation
(§4.1): requires the target session to exist, the key to be unused by any
other session (else `Conflict`), and the session to be `Started` or
`Stopped`. -/
def registryDetach (reg : Registry) (sid : Nat) (key : String) :
    Except SvcError Registry :=
  match findSession reg sid with
  | none => .error .notFound
  | some s =>
    if reg.sessions.any (fun t => t.detachKey == some key) then .error .conflict
    else if s.state == .Started || s.state == .Stopped then
      .ok { reg with
              sessions := reg.sessions.map
                (fun t => if t.id == sid then detachUpd key t else t) }
    else .error .invalidState

/-- Modelled from the spec: `Attach` of the missing service implementation
(§4.1): requires an exact key match; on success the caller becomes the new
owner, the session resumes its pre-detach state, and the response carries the
session's `config`. -/
def registryAttach (reg : Registry) (key : String) (newUid : Nat) :
    Except SvcError (Registry × Session) :=
  match reg.sessions.find? (fun t => t.detachKey == some key) with
  | none => .error .notFound
  | some s =>
    let s2 := { s with state := s.preDetach, detachKey := none, ownerUid := newUid }
    .ok ({ reg with
            sessions := reg.sessions.map
              (fun t => if t.id == s.id then s2 else t) }, s2)

/-- Modelled from the spec: `Destroy`/`FreeBuffers` of the missing service
implementation (§4.1, §7): an unknown session id yields `NotFound` (never a
crash); a known one is removed from the registry and its buffers are handed
to the external buffer-storage collaborator exactly once (appended to the
release log). -/
def destroySession (reg : Registry) (sid : Nat) : Registry × Option SvcError :=
  match findSession reg sid with
  | none => (reg, some .notFound)
  | some s =>
    ({ reg with
        sessions := reg.sessions.filter (fun t => !(t.id == sid)),
        releasedBuffers := reg.releasedBuffers ++ s.buffers }, none)

/-! ## CloneManager (spec §4.4) -/

/-- The all-ones 64-bit sentinel session id: `CloneSessionRequest.session_id
== kBugreportSessionId (0xff..ff)` requests bugreport-score selection. -/
def kBugreportSessionId : Nat := 2 ^ 64 - 1

/-- The `oneof selector` of `CloneSessionRequest`: a literal session id or a
unique session name. -/
inductive CloneSelector where
  | byId (sid : Nat)
  | byName (name : String)
  deriving DecidableEq, Repr

/-- Modelled from the spec: source-session resolution of the missing
`CloneManager` (§4.4): a direct id lookup, except that the all-ones sentinel
requests `PickBugreportCandidate`; a name selector resolves through
`ResolveUniqueName` (non-cloned sessions only). -/
def resolveSelector (reg : Registry) : CloneSelector → Option Session
  | .byId sid =>
    if sid == kBugreportSessionId then pickBugreportCandidate reg
    else findSession reg sid
  | .byName name => resolveUniqueName reg name

/-- Modelled from the spec: `Clone` of the missing `CloneManager` (§4.4):
resolve the source (else `NotFound`); reject a source that is itself a clone;
authorize (requester uid equals the source's owner uid, or uid 0, else
`PermissionDenied`); issue a best-effort bounded flush whose outcome
(`flushOk`) is non-fatal; then snapshot the source into a fresh read-only
session in `Stopped` with the `Cloned` flag, a fresh uuid/id, fresh buffer
ids and `clonedFromId` recorded. -/
def cloneSession (reg : Registry) (sel : CloneSelector) (requesterUid : Nat)
    (flushOk : Bool) : Except SvcError (Registry × Session) :=
  match resolveSelector reg sel with
  | none => .error .notFound
  | some src =>
    if src.cloned then .error .invalidState
    else if requesterUid == src.ownerUid || requesterUid == 0 then
      let _flushOutcome := flushOk
      let ns : Session :=
        { id := reg.nextId, uuid := reg.nextUuid, ownerUid := requesterUid,
          config := src.config, state := .Stopped, preDetach := .Stopped,
          buffers := (List.range src.buffers.length).map (reg.nextBuf + ·),
          detachKey := none, bugreportScore := src.bugreportScore,
          uniqueSessionName := src.uniqueSessionName,
          cloned := true, clonedFromId := some src.id }
      .ok ({ reg with
              sessions := reg.sessions ++ [ns],
              nextId := reg.nextId + 1,
              nextUuid := reg.nextUuid + 1,
              nextBuf := reg.nextBuf + src.buffers.length }, ns)
    else .error .permissionDenied

/-! ## ConsumerConnection-level RPCs (spec §4.5, §6) -/

/-- The per-connection state relevant to `EnableTracingRequest
.attach_notification_only`: whether the connection is re-bound to the
end-of-trace disabled notification. -/
structure ConnState where
  notifBound : Bool
  deriving DecidableEq, Repr

/-- The salient fields of `EnableTracingRequest` (consumer_port.proto). -/
structure EnableTracingRequest where
  traceConfig : Option TraceConfig
  attachNotificationOnly : Bool
  deriving DecidableEq, Repr

/-- Modelled from the spec: the `EnableTracing` RPC handler of the missing
`ConsumerConnection` (§6; proto comment on `attach_notification_only`): when
the flag is set, the `trace_config` is ignored and no method is called on the
tracing service — the connection is only re-bound to the end-of-trace
notification; otherwise a session is created through the registry. -/
def enableTracingRpc (reg : Registry) (conn : ConnState) (uid : Nat)
    (req : EnableTracingRequest) : Registry × ConnState × Option SvcError :=
  if req.attachNotificationOnly then
    (reg, { conn with notifBound := true }, none)
  else
    match req.traceConfig with
    | none => (reg, conn, some .invalidState)
    | some cfg =>
      match registryCreate reg cfg uid with
      | .ok (reg2, _) => (reg2, conn, none)
      | .error e => (reg, conn, some e)

/-- The `SaveTraceForBugreportResponse` message (consumer_port.proto). -/
structure SaveTraceResponse where
  success : Bool
  msg : String
  deriving DecidableEq, Repr

/-- Modelled from the spec: the deprecated `SaveTraceForBugreport` RPC of the
missing service implementation (proto comments on
`SaveTraceForBugreportResponse`): the response is sent only after the trace
was saved or the attempt failed; `success = true` only when an eligible
trace (one with `bugreport_score > 0`) was found and the save to the known
bugreport location succeeded (`saveOk` models the external file-save
collaborator); otherwise `success = false` with a descriptive message. -/
def saveTraceForBugreport (reg : Registry) (saveOk : Bool) : SaveTraceResponse :=
  match pickBugreportCandidate reg with
  | none => { success := false, msg := "no trace with bugreport score > 0 found" }
  | some _ =>
    if saveOk then { success := true, msg := "" }
    else { success := false, msg := "failed to save the trace into the bugreport location" }

/-! ## BufferReader (spec §4.3) -/

/-- `ReadBuffersResponse.Slice`: a byte payload and the
`last_slice_for_packet` flag (consumer_port.proto). Bytes are modelled as
natural numbers. -/
structure Slice where
  data : List Nat
  lastSliceForPacket : Bool
  deriving DecidableEq, Repr

/-- One streamed `ReadBuffersResponse`: a group of slices plus the
end-of-stream marker (the negation of the IPC `has_more` flag). -/
structure Chunk where
  slices : List Slice
  isLastChunk : Bool
  deriving DecidableEq, Repr

/-- Payload size of one slice. -/
def sliceSize (s : Slice) : Nat := s.data.length

/-- Total slice payload of a group of slices. -/
def payload (g : List Slice) : Nat := (g.map sliceSize).sum

/-- Modelled from the spec: slicing of one packet by the missing
`BufferReader` (§4.3): a packet that fits under the size ceiling is one
slice flagged `lastSliceForPacket`; a larger packet is cut into ceiling-sized
pieces with the flag only on the true last one. A ceiling of zero is treated
as unbounded (degenerate, excluded by the theorems' hypotheses). -/
def splitPacket (ceil : Nat) (bytes : List Nat) : List Slice :=
  if ceil = 0 ∨ bytes.length ≤ ceil then
    [{ data := bytes, lastSliceForPacket := true }]
  else
    { data := bytes.take ceil, lastSliceForPacket := false } ::
      splitPacket ceil (bytes.drop ceil)
termination_by bytes.length
decreasing_by
  simp only [List.length_drop]
  omega

/-- Modelled from the spec: the chunk-grouping loop of the missing
`BufferReader` (§4.3). `cur` is the group of slices accumulated for the
chunk under construction. A packet that fits under the ceiling is appended
to the current group when the group stays under the ceiling, else the group
is emitted and a new one starts; a packet above the ceiling flushes the
current group and is emitted as single-slice groups. -/
def drainAux (ceil : Nat) (cur : List Slice) :
    List (List Nat) → List (List Slice)
  | [] => if cur.isEmpty then [] else [cur]
  | pkt :: rest =>
    if pkt.length ≤ ceil then
      if payload cur + pkt.length ≤ ceil then
        drainAux ceil (cur ++ [{ data := pkt, lastSliceForPacket := true }]) rest
      else
        cur :: drainAux ceil [{ data := pkt, lastSliceForPacket := true }] rest
    else
      (if cur.isEmpty then [] else [cur]) ++
        (splitPacket ceil pkt).map (fun s => [s]) ++ drainAux ceil [] rest

/-- Marks the last group as the final chunk (`has_more == false`). -/
def markLast : List (List Slice) → List Chunk
  | [] => []
  | [g] => [{ slices := g, isLastChunk := true }]
  | g :: g2 :: gs => { slices := g, isLastChunk := false } :: markLast (g2 :: gs)

/-- Modelled from the spec: `Drain` of the missing `BufferReader` (§4.3):
turns the drained packets into the finite chunk sequence streamed by
`ReadBuffers`; an empty buffer yields a single empty terminal chunk. -/
def drain (ceil : Nat) (pkts : List (List Nat)) : List Chunk :=
  match drainAux ceil [] pkts with
  | [] => [{ slices := [], isLastChunk := true }]
  | g :: gs => markLast (g :: gs)

/-- The whole slice stream of a drained chunk sequence, in order. -/
def allSlices (cs : List Chunk) : List Slice := (cs.map Chunk.slices).flatten

/-- Reassembles packets from a slice stream: bytes accumulate until a slice
flagged `lastSliceForPacket` closes the packet; a trailing unterminated
group is dropped. -/
def packetsFrom (acc : List Nat) : List Slice → List (List Nat)
  | [] => []
  | s :: rest =>
    if s.lastSliceForPacket then (acc ++ s.data) :: packetsFrom [] rest
    else packetsFrom (acc ++ s.data) rest

/-- Reassembles the packet sequence encoded by a slice stream. -/
def packetsOfSlices (l : List Slice) : List (List Nat) := packetsFrom [] l

/-! ## Helper lemmas -/

theorem ackOnTime_erase (t : Nat) (a : ProducerAck) :
    ackOnTime t (if ackOnTime t a then a else { a with ackTime := none }) =
      ackOnTime t a := by
  by_cases h : ackOnTime t a
  · rw [if_pos h]
  · rw [if_neg h]
    simp only [Bool.not_eq_true] at h
    rw [h]
    rfl

theorem flushResult_dropLateAcks (acks : List ProducerAck) (t : Nat) :
    flushResult (dropLateAcks t acks) t = flushResult acks t := by
  unfold flushResult dropLateAcks
  have hall : ∀ l : List ProducerAck,
      (l.map fun a => if ackOnTime t a then a else { a with ackTime := none }).all
        (ackOnTime t) = l.all (ackOnTime t) := by
    intro l
    induction l with
    | nil => rfl
    | cons a tl ih => simp only [List.map_cons, List.all_cons, ih, ackOnTime_erase]
  rw [hall]

theorem runFlush_dropLateAcks (st : FlushState) (acks : List ProducerAck)
    (t : Nat) : runFlush st (dropLateAcks t acks) t = runFlush st acks t := by
  unfold runFlush
  rw [flushResult_dropLateAcks]

theorem dominates_refl (s : Session) : dominates s s := by
  unfold dominates
  omega

theorem dominates_trans {a b c : Session} (h1 : dominates a b)
    (h2 : dominates b c) : dominates a c := by
  unfold dominates at *
  omega

theorem eligibleForBugreport_iff (s : Session) :
    eligibleForBugreport s = true ↔ s.cloned = false ∧ 0 < s.bugreportScore := by
  unfold eligibleForBugreport
  simp [Bool.not_eq_true']

theorem pickFold_spec (l : List Session) (acc : Option Session)
    (hacc : ∀ b, acc = some b → eligibleForBugreport b = true) :
    (l.foldl pickStep acc = none →
      acc = none ∧ ∀ s ∈ l, eligibleForBugreport s = false) ∧
    (∀ r, l.foldl pickStep acc = some r →
      eligibleForBugreport r = true ∧
      (acc = some r ∨ r ∈ l) ∧
      (∀ s ∈ l, eligibleForBugreport s = true → dominates r s) ∧
      (∀ b, acc = some b → dominates r b)) := by
  induction l generalizing acc with
  | nil =>
    refine ⟨fun h => ⟨h, by simp⟩, fun r hr => ?_⟩
    simp only [List.foldl_nil] at hr
    refine ⟨hacc r hr, Or.inl hr, by simp, fun b hb => ?_⟩
    rw [hr] at hb
    cases hb
    exact dominates_refl r
  | cons s tl ih =>
    by_cases he : eligibleForBugreport s = true
    · cases acc with
      | none =>
        have hps : pickStep none s = some s := by simp [pickStep, he]
        have hf : ∀ b, some s = some b → eligibleForBugreport b = true := by
          intro b hb
          cases hb
          exact he
        constructor
        · intro h
          rw [List.foldl_cons, hps] at h
          exact absurd ((ih (some s) hf).1 h).1 (by simp)
        · intro r hr
          rw [List.foldl_cons, hps] at hr
          obtain ⟨helig, hloc, hdomtl, hdom⟩ := (ih (some s) hf).2 r hr
          refine ⟨helig, ?_, ?_, ?_⟩
          · cases hloc with
            | inl h =>
              cases h
              exact Or.inr (List.mem_cons_self s tl)
            | inr h => exact Or.inr (List.mem_cons_of_mem s h)
          · intro s2 hs2 he2
            cases hs2 with
            | head => exact hdom s rfl
            | tail _ hmem => exact hdomtl s2 hmem he2
          · intro b hb
            cases hb
      | some b0 =>
        have hb0 : eligibleForBugreport b0 = true := hacc b0 rfl
        by_cases hbeats : b0.bugreportScore < s.bugreportScore ∨
            (b0.bugreportScore = s.bugreportScore ∧ b0.id < s.id)
        · have hps : pickStep (some b0) s = some s := by
            simp [pickStep, he, hbeats]
          have hf : ∀ b, some s = some b → eligibleForBugreport b = true := by
            intro b hb
            cases hb
            exact he
          constructor
          · intro h
            rw [List.foldl_cons, hps] at h
            exact absurd ((ih (some s) hf).1 h).1 (by simp)
          · intro r hr
            rw [List.foldl_cons, hps] at hr
            obtain ⟨helig, hloc, hdomtl, hdom⟩ := (ih (some s) hf).2 r hr
            have hds : dominates r s := hdom s rfl
            have hdb0 : dominates s b0 := by
              unfold dominates
              omega
            refine ⟨helig, ?_, ?_, ?_⟩
            · cases hloc with
              | inl h =>
                cases h
                exact Or.inr (List.mem_cons_self s tl)
              | inr h => exact Or.inr (List.mem_cons_of_mem s h)
            · intro s2 hs2 he2
              cases hs2 with
              | head => exact hds
              | tail _ hmem => exact hdomtl s2 hmem he2
            · intro b hb
              cases hb
              exact dominates_trans hds hdb0
        · have hps : pickStep (some b0) s = some b0 := by
            simp [pickStep, he, hbeats]
          have hf : ∀ b, some b0 = some b → eligibleForBugreport b = true := by
            intro b hb
            cases hb
            exact hb0
          constructor
          · intro h
            rw [List.foldl_cons, hps] at h
            exact absurd ((ih (some b0) hf).1 h).1 (by simp)
          · intro r hr
            rw [List.foldl_cons, hps] at hr
            obtain ⟨helig, hloc, hdomtl, hdom⟩ := (ih (some b0) hf).2 r hr
            have hdb0 : dominates r b0 := hdom b0 rfl
            have hb0s : dominates b0 s := by
              unfold dominates
              omega
            refine ⟨helig, ?_, ?_, ?_⟩
            · cases hloc with
              | inl h => exact Or.inl h
              | inr h => exact Or.inr (List.mem_cons_of_mem s h)
            · intro s2 hs2 he2
              cases hs2 with
              | head => exact dominates_trans hdb0 hb0s
              | tail _ hmem => exact hdomtl s2 hmem he2
            · intro b hb
              cases hb
              exact hdb0
    · have hps : pickStep acc s = acc := by simp [pickStep, he]
      constructor
      · intro h
        rw [List.foldl_cons, hps] at h
        obtain ⟨h1, h2⟩ := (ih acc hacc).1 h
        refine ⟨h1, fun s2 hs2 => ?_⟩
        cases hs2 with
        | head => simpa using he
        | tail _ hmem => exact h2 s2 hmem
      · intro r hr
        rw [List.foldl_cons, hps] at hr
        obtain ⟨helig, hloc, hdomtl, hdom⟩ := (ih acc hacc).2 r hr
        refine ⟨helig, ?_, ?_, hdom⟩
        · cases hloc with
          | inl h => exact Or.inl h
          | inr h => exact Or.inr (List.mem_cons_of_mem s h)
        · intro s2 hs2 he2
          cases hs2 with
          | head => exact absurd he2 he
          | tail _ hmem => exact hdomtl s2 hmem he2

theorem find?_append_of_none {α : Type} (p : α → Bool) (l1 l2 : List α)
    (h : l1.find? p = none) : (l1 ++ l2).find? p = l2.find? p := by
  induction l1 with
  | nil => simp
  | cons a tl ih =>
    rw [List.find?_cons] at h
    cases hp : p a with
    | true => rw [hp] at h; cases h
    | false =>
      rw [hp] at h
      rw [List.cons_append, List.find?_cons, hp]
      exact ih h

theorem find?_key_after_detach (l : List Session) (sid : Nat) (key : String)
    (s : Session)
    (hf : l.find? (fun t => t.id == sid) = some s)
    (hnk : ∀ t ∈ l, t.detachKey ≠ some key) :
    (l.map (fun t => if t.id == sid then detachUpd key t else t)).find?
      (fun t => t.detachKey == some key) = some (detachUpd key s) := by
  induction l with
  | nil => cases hf
  | cons a tl ih =>
    rw [List.find?_cons] at hf
    rw [List.map_cons, List.find?_cons]
    cases hid : (a.id == sid) with
    | true =>
      rw [hid] at hf
      cases hf
      rw [if_pos rfl]
      have : ((detachUpd key s).detachKey == some key) = true := by
        unfold detachUpd
        simp
      rw [this]
    | false =>
      rw [hid] at hf
      rw [if_neg (by simp [hid])]
      have hna : (a.detachKey == some key) = false := by
        have := hnk a (List.mem_cons_self a tl)
        simpa using this
      rw [hna]
      exact ih hf (fun t ht => hnk t (List.mem_cons_of_mem a ht))

/-! ## Claim theorems -/

/-- C1: `Flush(timeout=T)`: if every producer feeding the session's buffers
acknowledges before `T` elapses the result is success; if `T` elapses first
the result is `Timeout`; and any acknowledgement arriving at or after `T` has
no observable effect on the reported result of this round or on the baseline
of any subsequent flush round. -/
theorem flush_timeout_contract (acks : List ProducerAck) (t : Nat)
    (st : FlushState) :
    ((∀ a ∈ acks, ∃ u, a.ackTime = some u ∧ u < t) →
      flushResult acks t = FlushResult.success) ∧
    ((∃ a ∈ acks, ackOnTime t a = false) →
      flushResult acks t = FlushResult.timeout) ∧
    runFlush st (dropLateAcks t acks) t = runFlush st acks t ∧
    (∀ acks2 t2, runFlush (runFlush st (dropLateAcks t acks) t).2 acks2 t2 =
      runFlush (runFlush st acks t).2 acks2 t2) := by
  refine ⟨?_, ?_, runFlush_dropLateAcks st acks t, ?_⟩
  · intro h
    unfold flushResult
    have : acks.all (ackOnTime t) = true := by
      rw [List.all_eq_true]
      intro a ha
      obtain ⟨u, hu, hlt⟩ := h a ha
      unfold ackOnTime
      rw [hu]
      simpa using hlt
    rw [this]
    rfl
  · intro h
    unfold flushResult
    obtain ⟨a, ha, hfalse⟩ := h
    have : acks.all (ackOnTime t) = false := by
      rw [List.all_eq_false]
      exact ⟨a, ha, by simp [hfalse]⟩
    rw [this]
    rfl
  · intro acks2 t2
    rw [runFlush_dropLateAcks st acks t]

/-- Witness for C1 at a concrete round: two producers, one acknowledging at
5 ms, the other at 30 ms, deadline 10 ms: the round times out. -/
theorem flush_timeout_contract_witness :
    (∃ a ∈ [ProducerAck.mk 1 (some 5), ProducerAck.mk 2 (some 30)],
      ackOnTime 10 a = false) ∧
    flushResult [ProducerAck.mk 1 (some 5), ProducerAck.mk 2 (some 30)] 10 =
      FlushResult.timeout :=
  ⟨by decide,
   (flush_timeout_contract [ProducerAck.mk 1 (some 5), ProducerAck.mk 2 (some 30)]
      10 (FlushState.mk 0 none)).2.1 (by decide)⟩

/-- C3: every session's state changes only along the edges of the §4.1 state
machine; any other attempted transition yields `InvalidState` and leaves the
whole session state unchanged; in particular `StartTracing` succeeds exactly
in `WaitingForExplicitStart` on a non-cloned session. -/
theorem session_state_machine (m : MachineState) (op : ConsumerOp)
    (hInv : PreDetachInv m) :
    ((machineStep m op).2 = none →
      ((machineStep m op).1.st = m.st ∨ Edge m.st (machineStep m op).1.st)) ∧
    (∀ e, (machineStep m op).2 = some e →
      e = SvcError.invalidState ∧ (machineStep m op).1 = m) ∧
    ((machineStep m ConsumerOp.startTracing).2 = none ↔
      m.st = SessionState.WaitingForExplicitStart ∧ m.cloned = false) :=
  (by decide :
    ∀ (m : MachineState) (op : ConsumerOp), PreDetachInv m →
      ((machineStep m op).2 = none →
        ((machineStep m op).1.st = m.st ∨ Edge m.st (machineStep m op).1.st)) ∧
      (∀ e, (machineStep m op).2 = some e →
        e = SvcError.invalidState ∧ (machineStep m op).1 = m) ∧
      ((machineStep m ConsumerOp.startTracing).2 = none ↔
        m.st = SessionState.WaitingForExplicitStart ∧ m.cloned = false))
    m op hInv

/-- Witness for C3 at a concrete state: `StartTracing` on a `Started`
session is an invalid transition. -/
theorem session_state_machine_witness :
    PreDetachInv (MachineState.mk SessionState.Started SessionState.Stopped false) ∧
    (∀ e, (machineStep
        (MachineState.mk SessionState.Started SessionState.Stopped false)
        ConsumerOp.startTracing).2 = some e →
      e = SvcError.invalidState ∧
      (machineStep (MachineState.mk SessionState.Started SessionState.Stopped false)
        ConsumerOp.startTracing).1 =
        MachineState.mk SessionState.Started SessionState.Stopped false) :=
  ⟨by decide,
   (session_state_machine
      (MachineState.mk SessionState.Started SessionState.Stopped false)
      ConsumerOp.startTracing (by decide)).2.1⟩

/-- C8: `FreeBuffers`/`Destroy` is idempotent: a second call on the same
session id returns `NotFound` with the registry — including the log of
buffer releases to the external storage collaborator — exactly as the first
call left it, so the underlying storage is released at most once and the
repeated call is never a crash. -/
theorem freeBuffers_idempotent (reg : Registry) (sid : Nat) :
    destroySession (destroySession reg sid).1 sid =
      ((destroySession reg sid).1, some SvcError.notFound) ∧
    (destroySession (destroySession reg sid).1 sid).1.releasedBuffers =
      (destroySession reg sid).1.releasedBuffers := by
  have hnone : findSession (destroySession reg sid).1 sid = none := by
    unfold destroySession
    cases hf : findSession reg sid with
    | none => exact hf
    | some s =>
      simp only [findSession, List.find?_eq_none, List.mem_filter]
      intro t ht
      have := ht.2
      simp only [Bool.not_eq_true', beq_eq_false_iff_ne, ne_eq] at this
      simpa using this
  have hstep : destroySession (destroySession reg sid).1 sid =
      ((destroySession reg sid).1, some SvcError.notFound) := by
    conv_lhs => rw [destroySession]
    rw [hnone]
  exact ⟨hstep, by rw [hstep]⟩

/-- C9: `EnableTracing` with `attach_notification_only = true` ignores the
supplied trace config entirely and performs no session-creating or
session-mutating operation: the registry (its session set and every
session's state and config) is returned exactly unchanged, and only the
connection's binding to the end-of-trace notification changes. -/
theorem attach_notification_only_frame (reg : Registry) (conn : ConnState)
    (uid : Nat) (cfg : Option TraceConfig) :
    enableTracingRpc reg conn uid
        { traceConfig := cfg, attachNotificationOnly := true } =
      (reg, { conn with notifBound := true }, none) := rfl

/-- C4: a `CloneSession` whose session-id selector is the all-ones 64-bit
sentinel resolves its source via bugreport-score selection: the chosen
session is live, non-cloned, has a strictly positive score, and every other
eligible session either has a strictly smaller score or an equal score and
an earlier creation (smaller id, ids being monotonically issued); sessions
with score 0 are never chosen, and with no eligible session the call returns
`NotFound`. -/
theorem clone_sentinel_picks_best (reg : Registry) :
    (∀ r, resolveSelector reg (CloneSelector.byId kBugreportSessionId) = some r →
      r ∈ reg.sessions ∧ r.cloned = false ∧ 0 < r.bugreportScore ∧
      ∀ s ∈ reg.sessions, s.cloned = false → 0 < s.bugreportScore →
        s.bugreportScore < r.bugreportScore ∨
          (s.bugreportScore = r.bugreportScore ∧ s.id ≤ r.id)) ∧
    (resolveSelector reg (CloneSelector.byId kBugreportSessionId) = none →
      (∀ s ∈ reg.sessions, s.cloned = false → s.bugreportScore = 0) ∧
      ∀ uid f, cloneSession reg (CloneSelector.byId kBugreportSessionId) uid f =
        .error SvcError.notFound) := by
  have hres : resolveSelector reg (CloneSelector.byId kBugreportSessionId) =
      pickBugreportCandidate reg := by
    unfold resolveSelector
    simp
  obtain ⟨hnone, hsome⟩ :=
    pickFold_spec reg.sessions none (fun b hb => by cases hb)
  constructor
  · intro r hr
    rw [hres] at hr
    obtain ⟨helig, hloc, hdom, _⟩ := hsome r hr
    obtain ⟨hnc, hpos⟩ := (eligibleForBugreport_iff r).1 helig
    refine ⟨?_, hnc, hpos, ?_⟩
    · cases hloc with
      | inl h => cases h
      | inr h => exact h
    · intro s hs hsnc hspos
      have := hdom s hs ((eligibleForBugreport_iff s).2 ⟨hsnc, hspos⟩)
      unfold dominates at this
      omega
  · intro hn
    rw [hres] at hn
    obtain ⟨_, hall⟩ := hnone hn
    refine ⟨fun s hs hsnc => ?_, fun uid f => ?_⟩
    · have := hall s hs
      rw [eligibleForBugreport] at this
      simp only [hsnc, Bool.not_false, Bool.true_and, decide_eq_false_iff_not,
        Bool.and_eq_false_iff] at this
      omega
    · unfold cloneSession
      rw [hres, hn]

/-- Witness for C4: among two eligible sessions with equal score 5 and ids
1 and 2 plus a score-0 session, the sentinel selector picks the more
recently created session (id 2). -/
theorem clone_sentinel_picks_best_witness :
    resolveSelector
        (Registry.mk
          [Session.mk 1 11 0 (TraceConfig.mk false 0 [4] none 5) SessionState.Started
            SessionState.Stopped [0] none 5 none false none,
           Session.mk 2 12 0 (TraceConfig.mk false 0 [4] none 5) SessionState.Started
            SessionState.Stopped [1] none 5 none false none,
           Session.mk 3 13 0 (TraceConfig.mk false 0 [4] none 0) SessionState.Started
            SessionState.Stopped [2] none 0 none false none]
          4 14 3 [])
        (CloneSelector.byId kBugreportSessionId) =
      some (Session.mk 2 12 0 (TraceConfig.mk false 0 [4] none 5) SessionState.Started
        SessionState.Stopped [1] none 5 none false none) ∧
    (Session.mk 2 12 0 (TraceConfig.mk false 0 [4] none 5) SessionState.Started
        SessionState.Stopped [1] none 5 none false none).cloned = false ∧
    0 < (Session.mk 2 12 0 (TraceConfig.mk false 0 [4] none 5) SessionState.Started
        SessionState.Stopped [1] none 5 none false none).bugreportScore := by
  have h := (clone_sentinel_picks_best
    (Registry.mk
      [Session.mk 1 11 0 (TraceConfig.mk false 0 [4] none 5) SessionState.Started
        SessionState.Stopped [0] none 5 none false none,
       Session.mk 2 12 0 (TraceConfig.mk false 0 [4] none 5) SessionState.Started
        SessionState.Stopped [1] none 5 none false none,
       Session.mk 3 13 0 (TraceConfig.mk false 0 [4] none 0) SessionState.Started
        SessionState.Stopped [2] none 0 none false none]
      4 14 3 [])).1
    (Session.mk 2 12 0 (TraceConfig.mk false 0 [4] none 5) SessionState.Started
      SessionState.Stopped [1] none 5 none false none) (by decide)
  exact ⟨by decide, h.2.1, h.2.2.1⟩

/-- C5: a `CloneSession` succeeds only when the requester's uid equals the
source session's owner uid or the requester's uid is 0; a uid mismatch
yields `PermissionDenied`, a response-level error distinct from `NotFound`,
and the operation is a total function (never a crash or transport fault). -/
theorem clone_authorization (reg : Registry) (sel : CloneSelector) (uid : Nat)
    (f : Bool) (src : Session)
    (hres : resolveSelector reg sel = some src) (hnc : src.cloned = false) :
    (uid ≠ src.ownerUid → uid ≠ 0 →
      cloneSession reg sel uid f = .error SvcError.permissionDenied) ∧
    (∀ reg2 ns, cloneSession reg sel uid f = .ok (reg2, ns) →
      uid = src.ownerUid ∨ uid = 0) ∧
    SvcError.permissionDenied ≠ SvcError.notFound := by
  refine ⟨?_, ?_, by decide⟩
  · intro h1 h2
    have hauth : (uid == src.ownerUid || uid == 0) = false := by
      simp [h1, h2]
    unfold cloneSession
    rw [hres]
    simp [hnc, hauth]
  · intro reg2 ns hok
    unfold cloneSession at hok
    rw [hres] at hok
    simp only [hnc, Bool.false_eq_true, if_false] at hok
    by_cases hauth : (uid == src.ownerUid || uid == 0) = true
    · simp only [beq_iff_eq, Bool.or_eq_true] at hauth
      exact hauth
    · rw [Bool.not_eq_true] at hauth
      rw [hauth] at hok
      simp at hok

/-- Witness for C5: cloning a session owned by uid 42 as requester uid 7
(neither owner nor root) is denied with `PermissionDenied`. -/
theorem clone_authorization_witness :
    cloneSession
        (Registry.mk
          [Session.mk 1 11 42 (TraceConfig.mk false 0 [4] none 1) SessionState.Started
            SessionState.Stopped [0] none 1 none false none]
          2 12 1 [])
        (CloneSelector.byId 1) 7 true = .error SvcError.permissionDenied :=
  (clone_authorization
    (Registry.mk
      [Session.mk 1 11 42 (TraceConfig.mk false 0 [4] none 1) SessionState.Started
        SessionState.Stopped [0] none 1 none false none]
      2 12 1 [])
    (CloneSelector.byId 1) 7 true
    (Session.mk 1 11 42 (TraceConfig.mk false 0 [4] none 1) SessionState.Started
      SessionState.Stopped [0] none 1 none false none)
    (by decide) (by decide)).1 (by decide) (by decide)

/-- C10: the consumer surface carries the deprecated `SaveTraceForBugreport`
RPC: its response reports `success = true` exactly when an eligible session
(bugreport score > 0, non-cloned) existed and the save to the bugreport
location succeeded; otherwise `success = false` together with a descriptive
non-empty message — always a response, never a transport-level fault. -/
theorem saveTraceForBugreport_contract (reg : Registry) (saveOk : Bool) :
    ((saveTraceForBugreport reg saveOk).success = true ↔
      (∃ s, pickBugreportCandidate reg = some s) ∧ saveOk = true) ∧
    ((saveTraceForBugreport reg saveOk).success = true →
      ∃ s ∈ reg.sessions, s.cloned = false ∧ 0 < s.bugreportScore) ∧
    ((saveTraceForBugreport reg saveOk).success = false →
      (saveTraceForBugreport reg saveOk).msg ≠ "") := by
  obtain ⟨hnone, hsome⟩ :=
    pickFold_spec reg.sessions none (fun b hb => by cases hb)
  have hiff : (saveTraceForBugreport reg saveOk).success = true ↔
      (∃ s, pickBugreportCandidate reg = some s) ∧ saveOk = true := by
    unfold saveTraceForBugreport
    cases hp : pickBugreportCandidate reg with
    | none =>
      simp only [hp]
      constructor
      · intro h
        cases h
      · rintro ⟨⟨s, hs⟩, _⟩
        cases hs
    | some s =>
      simp only [hp]
      cases saveOk with
      | true => simp
      | false => simp
  refine ⟨hiff, ?_, ?_⟩
  · intro h
    obtain ⟨⟨s, hs⟩, _⟩ := hiff.1 h
    obtain ⟨helig, hloc, _, _⟩ := hsome s hs
    obtain ⟨hnc, hpos⟩ := (eligibleForBugreport_iff s).1 helig
    refine ⟨s, ?_, hnc, hpos⟩
    cases hloc with
    | inl hh => cases hh
    | inr hh => exact hh
  · intro h
    cases hp : pickBugreportCandidate reg with
    | none =>
      unfold saveTraceForBugreport
      rw [hp]
      exact (by decide : ("no trace with bugreport score > 0 found" : String) ≠ "")
    | some s =>
      cases saveOk with
      | true =>
        have ht := hiff.2 ⟨⟨s, hp⟩, rfl⟩
        rw [ht] at h
        exact Bool.noConfusion h
      | false =>
        unfold saveTraceForBugreport
        rw [hp]
        exact (by decide :
          ("failed to save the trace into the bugreport location" : String) ≠ "")

theorem find?_id_append_last (l : List Session) (ns : Session) (sid : Nat)
    (hid : ns.id = sid)
    (hFresh : ∀ t ∈ l, t.id ≠ sid) :
    (l ++ [ns]).find? (fun t => t.id == sid) = some ns := by
  have h1 : l.find? (fun t => t.id == sid) = none := by
    rw [List.find?_eq_none]
    intro t ht
    simpa using hFresh t ht
  rw [find?_append_of_none _ _ _ h1, List.find?_cons]
  simp [hid]

theorem cloneById_of_cloned_rejected (regX : Registry) (sid : Nat)
    (nsX : Session)
    (hfind : findSession regX sid = some nsX)
    (hcl : nsX.cloned = true)
    (hnotSent : sid ≠ kBugreportSessionId) :
    ∀ uid2 f2, cloneSession regX (CloneSelector.byId sid) uid2 f2 =
      .error SvcError.invalidState := by
  intro uid2 f2
  unfold cloneSession
  have hres2 : resolveSelector regX (CloneSelector.byId sid) = some nsX := by
    have hb : (sid == kBugreportSessionId) = false := by
      simpa using hnotSent
    unfold resolveSelector
    simp only [hb, Bool.false_eq_true, if_false]
    exact hfind
  rw [hres2]
  simp [hcl]

theorem cloneSession_ok_spec (reg : Registry) (sel : CloneSelector) (uid : Nat)
    (f : Bool) (reg2 : Registry) (ns : Session)
    (hok : cloneSession reg sel uid f = .ok (reg2, ns)) :
    ∃ src, resolveSelector reg sel = some src ∧ src.cloned = false ∧
      reg2.sessions = reg.sessions ++ [ns] ∧ ns.id = reg.nextId ∧
      ns.state = SessionState.Stopped ∧ ns.cloned = true ∧
      ns.clonedFromId = some src.id := by
  unfold cloneSession at hok
  cases hres : resolveSelector reg sel with
  | none =>
    rw [hres] at hok
    cases hok
  | some src =>
    rw [hres] at hok
    by_cases hc : src.cloned = true
    · simp [hc] at hok
    · rw [Bool.not_eq_true] at hc
      simp only [hc, Bool.false_eq_true, if_false] at hok
      by_cases hauth : (uid == src.ownerUid || uid == 0) = true
      · rw [if_pos hauth] at hok
        simp only [Except.ok.injEq, Prod.mk.injEq] at hok
        obtain ⟨hR, hN⟩ := hok
        subst hR
        subst hN
        exact ⟨src, rfl, hc, rfl, rfl, rfl, rfl, rfl⟩
      · rw [if_neg hauth] at hok
        cases hok

/-- C6: every session produced by `CloneSession` starts directly in
`Stopped` with the `Cloned` flag set and records its source in
`clonedFromId`; it is read-only (`Flush`, `ChangeTraceConfig` and
`StartTracing` against it are rejected); a cloned session is never accepted
as the source of a further `CloneSession` by id; and unique-session-name
resolution only ever returns non-cloned sessions. -/
theorem clone_readonly (reg : Registry) (sel : CloneSelector) (uid : Nat)
    (f : Bool) (reg2 : Registry) (ns : Session)
    (hFresh : ∀ s ∈ reg.sessions, s.id < reg.nextId)
    (hSent : reg.nextId ≠ kBugreportSessionId)
    (hok : cloneSession reg sel uid f = .ok (reg2, ns)) :
    ns.state = SessionState.Stopped ∧ ns.cloned = true ∧
    (∃ src, resolveSelector reg sel = some src ∧ src.cloned = false ∧
      ns.clonedFromId = some src.id) ∧
    (machineStep (sessionMachine ns) ConsumerOp.flush).2 =
      some SvcError.invalidState ∧
    (machineStep (sessionMachine ns) ConsumerOp.changeTraceConfig).2 =
      some SvcError.invalidState ∧
    (machineStep (sessionMachine ns) ConsumerOp.startTracing).2 =
      some SvcError.invalidState ∧
    (∀ uid2 f2, cloneSession reg2 (CloneSelector.byId ns.id) uid2 f2 =
      .error SvcError.invalidState) ∧
    (∀ (regA : Registry) (nm : String) (sx : Session),
      resolveSelector regA (CloneSelector.byName nm) = some sx →
        sx.cloned = false) := by
  obtain ⟨src, hres, hc, hsess, hid, hstop, hcl, hcf⟩ :=
    cloneSession_ok_spec reg sel uid f reg2 ns hok
  refine ⟨hstop, hcl, ⟨src, hres, hc, hcf⟩, ?_, ?_, ?_, ?_, ?_⟩
  · simp [machineStep, sessionMachine, hcl]
  · simp [machineStep, sessionMachine, hcl]
  · simp [machineStep, sessionMachine, hcl]
  · intro uid2 f2
    refine cloneById_of_cloned_rejected reg2 ns.id ns ?_ hcl ?_ uid2 f2
    · unfold findSession
      rw [hsess]
      refine find?_id_append_last reg.sessions ns ns.id rfl ?_
      intro t ht
      rw [hid]
      exact Nat.ne_of_lt (hFresh t ht)
    · rw [hid]
      exact hSent
  · intro regA nm sx hsx
    unfold resolveSelector resolveUniqueName at hsx
    have := List.find?_some hsx
    simp only [Bool.and_eq_true, Bool.not_eq_true'] at this
    exact this.1

/-- Witness for C6: cloning session 1 succeeds and the clone is `Stopped`,
flagged `Cloned`, and records `clonedFromId = 1`. -/
theorem clone_readonly_witness :
    cloneSession
        (Registry.mk
          [Session.mk 1 11 42 (TraceConfig.mk false 0 [4] none 1) SessionState.Started
            SessionState.Stopped [0] none 1 none false none]
          2 12 1 [])
        (CloneSelector.byId 1) 42 true =
      .ok
        (Registry.mk
          [Session.mk 1 11 42 (TraceConfig.mk false 0 [4] none 1) SessionState.Started
            SessionState.Stopped [0] none 1 none false none,
           Session.mk 2 12 42 (TraceConfig.mk false 0 [4] none 1) SessionState.Stopped
            SessionState.Stopped [1] none 1 none true (some 1)]
          3 13 2 [],
         Session.mk 2 12 42 (TraceConfig.mk false 0 [4] none 1) SessionState.Stopped
          SessionState.Stopped [1] none 1 none true (some 1)) ∧
    (Session.mk 2 12 42 (TraceConfig.mk false 0 [4] none 1) SessionState.Stopped
      SessionState.Stopped [1] none 1 none true (some 1)).state =
        SessionState.Stopped ∧
    (Session.mk 2 12 42 (TraceConfig.mk false 0 [4] none 1) SessionState.Stopped
      SessionState.Stopped [1] none 1 none true (some 1)).cloned = true :=
  ⟨by rfl,
   (clone_readonly
      (Registry.mk
        [Session.mk 1 11 42 (TraceConfig.mk false 0 [4] none 1) SessionState.Started
          SessionState.Stopped [0] none 1 none false none]
        2 12 1 [])
      (CloneSelector.byId 1) 42 true
      (Registry.mk
        [Session.mk 1 11 42 (TraceConfig.mk false 0 [4] none 1) SessionState.Started
          SessionState.Stopped [0] none 1 none false none,
         Session.mk 2 12 42 (TraceConfig.mk false 0 [4] none 1) SessionState.Stopped
          SessionState.Stopped [1] none 1 none true (some 1)]
        3 13 2 [])
      (Session.mk 2 12 42 (TraceConfig.mk false 0 [4] none 1) SessionState.Stopped
        SessionState.Stopped [1] none 1 none true (some 1))
      (by decide) (by decide) (by rfl)).1,
   (clone_readonly
      (Registry.mk
        [Session.mk 1 11 42 (TraceConfig.mk false 0 [4] none 1) SessionState.Started
          SessionState.Stopped [0] none 1 none false none]
        2 12 1 [])
      (CloneSelector.byId 1) 42 true
      (Registry.mk
        [Session.mk 1 11 42 (TraceConfig.mk false 0 [4] none 1) SessionState.Started
          SessionState.Stopped [0] none 1 none false none,
         Session.mk 2 12 42 (TraceConfig.mk false 0 [4] none 1) SessionState.Stopped
          SessionState.Stopped [1] none 1 none true (some 1)]
        3 13 2 [])
      (Session.mk 2 12 42 (TraceConfig.mk false 0 [4] none 1) SessionState.Stopped
        SessionState.Stopped [1] none 1 none true (some 1))
      (by decide) (by decide) (by rfl)).2.1⟩

/-- C7: a successful `Detach(key)` immediately followed by `Attach(key)`
returns a session carrying exactly the `trace_config` active at detach time,
with `id` and `uuid` (and lifecycle state) unchanged; only the owner uid
changes to the attaching consumer. -/
theorem detach_attach_roundtrip (reg : Registry) (sid : Nat) (key : String)
    (newUid : Nat) (s : Session)
    (hfind : findSession reg sid = some s)
    (hstate : s.state = SessionState.Started ∨ s.state = SessionState.Stopped)
    (hnokey : ∀ t ∈ reg.sessions, t.detachKey ≠ some key) :
    ∃ regD, registryDetach reg sid key = .ok regD ∧
      ∃ regA s2, registryAttach regD key newUid = .ok (regA, s2) ∧
        s2.config = s.config ∧ s2.id = s.id ∧ s2.uuid = s.uuid ∧
        s2.state = s.state ∧ s2.ownerUid = newUid := by
  have hfind2 : reg.sessions.find? (fun t => t.id == sid) = some s := hfind
  have hany : (reg.sessions.any fun t => t.detachKey == some key) = false := by
    rw [List.any_eq_false]
    intro t ht
    simpa using hnokey t ht
  have hst : (s.state == SessionState.Started ||
      s.state == SessionState.Stopped) = true := by
    cases hstate with
    | inl h => rw [h]; rfl
    | inr h => rw [h]; rfl
  have hkey := find?_key_after_detach reg.sessions sid key s hfind2 hnokey
  have hdetEq : registryDetach reg sid key = .ok (Registry.mk (reg.sessions.map (fun t => if t.id == sid then detachUpd key t else t)) reg.nextId reg.nextUuid reg.nextBuf reg.releasedBuffers) := by
    unfold registryDetach
    rw [hfind]
    simp [hany, hst]
  have hattEq : registryAttach (Registry.mk (reg.sessions.map (fun t => if t.id == sid then detachUpd key t else t)) reg.nextId reg.nextUuid reg.nextBuf reg.releasedBuffers) key newUid = .ok (Registry.mk ((reg.sessions.map (fun t => if t.id == sid then detachUpd key t else t)).map (fun t => if t.id == (detachUpd key s).id then { detachUpd key s with state := (detachUpd key s).preDetach, detachKey := none, ownerUid := newUid } else t)) reg.nextId reg.nextUuid reg.nextBuf reg.releasedBuffers, { detachUpd key s with state := (detachUpd key s).preDetach, detachKey := none, ownerUid := newUid }) := by
    unfold registryAttach
    simp only [hkey]
  exact ⟨_, hdetEq, _, _, hattEq, rfl, rfl, rfl, rfl, rfl⟩

/-- Witness for C7: a concrete `Started` session detached with key "k" and
re-attached by uid 9 comes back with its original config, id and uuid. -/
theorem detach_attach_roundtrip_witness :
    findSession
        (Registry.mk
          [Session.mk 1 11 42 (TraceConfig.mk false 0 [4] none 1) SessionState.Started
            SessionState.Stopped [0] none 1 none false none]
          2 12 1 [])
        1 =
      some (Session.mk 1 11 42 (TraceConfig.mk false 0 [4] none 1) SessionState.Started
        SessionState.Stopped [0] none 1 none false none) ∧
    ∃ regD, registryDetach
        (Registry.mk
          [Session.mk 1 11 42 (TraceConfig.mk false 0 [4] none 1) SessionState.Started
            SessionState.Stopped [0] none 1 none false none]
          2 12 1 [])
        1 "k" = .ok regD ∧
      ∃ regA s2, registryAttach regD "k" 9 = .ok (regA, s2) ∧
        s2.config = (Session.mk 1 11 42 (TraceConfig.mk false 0 [4] none 1)
          SessionState.Started SessionState.Stopped [0] none 1 none false none).config ∧
        s2.id = 1 ∧ s2.uuid = 11 ∧
        s2.state = SessionState.Started ∧ s2.ownerUid = 9 :=
  ⟨by decide,
   detach_attach_roundtrip
    (Registry.mk
      [Session.mk 1 11 42 (TraceConfig.mk false 0 [4] none 1) SessionState.Started
        SessionState.Stopped [0] none 1 none false none]
      2 12 1 [])
    1 "k" 9
    (Session.mk 1 11 42 (TraceConfig.mk false 0 [4] none 1) SessionState.Started
      SessionState.Stopped [0] none 1 none false none)
    (by decide) (by decide) (by decide)⟩

/-- Witness for C10 on an empty registry: no eligible session exists, so the
response is a failure with a non-empty message. -/
theorem saveTraceForBugreport_contract_witness :
    (saveTraceForBugreport (Registry.mk [] 0 0 0 []) true).success = false ∧
    (saveTraceForBugreport (Registry.mk [] 0 0 0 []) true).msg ≠ "" :=
  ⟨by decide,
   (saveTraceForBugreport_contract (Registry.mk [] 0 0 0 []) true).2.2 (by decide)⟩

theorem splitPacket_of_le (ceil : Nat) (bytes : List Nat)
    (h : ceil = 0 ∨ bytes.length ≤ ceil) :
    splitPacket ceil bytes = [{ data := bytes, lastSliceForPacket := true }] := by
  rw [splitPacket, if_pos h]

theorem splitPacket_ne_nil (ceil : Nat) (bytes : List Nat) :
    splitPacket ceil bytes ≠ [] := by
  rw [splitPacket]
  split <;> simp

theorem splitPacket_size_le (ceil : Nat) (bytes : List Nat) (hc : 0 < ceil) :
    ∀ sl ∈ splitPacket ceil bytes, sliceSize sl ≤ ceil := by
  induction bytes using splitPacket.induct ceil with
  | case1 bytes h =>
    intro sl hsl
    rw [splitPacket, if_pos h] at hsl
    rw [List.mem_singleton] at hsl
    subst hsl
    rcases h with h | h
    · omega
    · simpa [sliceSize] using h
  | case2 bytes h ih =>
    intro sl hsl
    rw [splitPacket, if_neg h] at hsl
    rcases List.mem_cons.mp hsl with rfl | hsl
    · simp only [sliceSize, List.length_take]
      omega
    · exact ih sl hsl

theorem packetsFrom_splitPacket_append (ceil : Nat) (bytes : List Nat)
    (ss : List Slice) :
    ∀ acc, packetsFrom acc (splitPacket ceil bytes ++ ss) =
      (acc ++ bytes) :: packetsFrom [] ss := by
  induction bytes using splitPacket.induct ceil with
  | case1 bytes h =>
    intro acc
    rw [splitPacket, if_pos h]
    simp [packetsFrom]
  | case2 bytes h ih =>
    intro acc
    rw [splitPacket, if_neg h]
    rw [List.cons_append]
    show packetsFrom acc
      ({ data := bytes.take ceil, lastSliceForPacket := false } ::
        (splitPacket ceil (bytes.drop ceil) ++ ss)) = _
    rw [packetsFrom]
    simp only [Bool.false_eq_true, if_false]
    rw [ih (acc ++ bytes.take ceil), List.append_assoc, List.take_append_drop]

theorem packetsFrom_flatten_splits (ceil : Nat) (pkts : List (List Nat)) :
    packetsFrom [] ((pkts.map (splitPacket ceil)).flatten) = pkts := by
  induction pkts with
  | nil => rfl
  | cons p rest ih =>
    simp only [List.map_cons, List.flatten_cons]
    rw [packetsFrom_splitPacket_append ceil p _ [], List.nil_append, ih]

theorem flatten_map_singleton (xs : List Slice) :
    (xs.map (fun s => [s])).flatten = xs := by
  induction xs with
  | nil => rfl
  | cons a tl ih => simp [ih]

theorem payload_append_single (g : List Slice) (sl : Slice) :
    payload (g ++ [sl]) = payload g + sliceSize sl := by
  unfold payload
  simp

theorem drainAux_flatten (ceil : Nat) (pkts : List (List Nat)) :
    ∀ cur, (drainAux ceil cur pkts).flatten =
      cur ++ (pkts.map (splitPacket ceil)).flatten := by
  induction pkts with
  | nil =>
    intro cur
    cases cur <;> simp [drainAux]
  | cons pkt rest ih =>
    intro cur
    rw [drainAux]
    by_cases h1 : pkt.length ≤ ceil
    · rw [if_pos h1]
      by_cases h2 : payload cur + pkt.length ≤ ceil
      · rw [if_pos h2, ih]
        simp only [List.map_cons, List.flatten_cons]
        rw [splitPacket_of_le ceil pkt (Or.inr h1)]
        simp
      · rw [if_neg h2]
        simp only [List.flatten_cons, ih, List.map_cons]
        rw [splitPacket_of_le ceil pkt (Or.inr h1)]
    · rw [if_neg h1]
      simp only [List.map_cons, List.flatten_cons, List.flatten_append,
        flatten_map_singleton, ih []]
      cases cur <;> simp

theorem drainAux_payload_le (ceil : Nat) (hc : 0 < ceil)
    (pkts : List (List Nat)) :
    ∀ cur, payload cur ≤ ceil →
      ∀ g ∈ drainAux ceil cur pkts, payload g ≤ ceil := by
  induction pkts with
  | nil =>
    intro cur hcur g hg
    rw [drainAux] at hg
    split at hg
    · cases hg
    · rw [List.mem_singleton] at hg
      subst hg
      exact hcur
  | cons pkt rest ih =>
    intro cur hcur g hg
    rw [drainAux] at hg
    by_cases h1 : pkt.length ≤ ceil
    · rw [if_pos h1] at hg
      by_cases h2 : payload cur + pkt.length ≤ ceil
      · rw [if_pos h2] at hg
        refine ih _ ?_ g hg
        rw [payload_append_single]
        simpa [sliceSize] using h2
      · rw [if_neg h2] at hg
        rcases List.mem_cons.mp hg with rfl | hg
        · exact hcur
        · refine ih _ ?_ g hg
          simpa [payload, sliceSize] using h1
    · rw [if_neg h1] at hg
      rw [List.mem_append, List.mem_append] at hg
      rcases hg with (hg | hg) | hg
      · split at hg
        · cases hg
        · rw [List.mem_singleton] at hg
          subst hg
          exact hcur
      · rw [List.mem_map] at hg
        obtain ⟨sl, hsl, rfl⟩ := hg
        have := splitPacket_size_le ceil pkt hc sl hsl
        simpa [payload] using this
      · exact ih [] (by simp [payload]) g hg

theorem drainAux_unflagged_singleton (ceil : Nat) (pkts : List (List Nat)) :
    ∀ cur, (∀ sl ∈ cur, sl.lastSliceForPacket = true) →
      ∀ g ∈ drainAux ceil cur pkts,
        (∀ sl ∈ g, sl.lastSliceForPacket = true) ∨ ∃ s0, g = [s0] := by
  induction pkts with
  | nil =>
    intro cur hcur g hg
    rw [drainAux] at hg
    split at hg
    · cases hg
    · rw [List.mem_singleton] at hg
      subst hg
      exact Or.inl hcur
  | cons pkt rest ih =>
    intro cur hcur g hg
    rw [drainAux] at hg
    by_cases h1 : pkt.length ≤ ceil
    · rw [if_pos h1] at hg
      by_cases h2 : payload cur + pkt.length ≤ ceil
      · rw [if_pos h2] at hg
        refine ih _ ?_ g hg
        intro sl hsl
        rcases List.mem_append.mp hsl with h | h
        · exact hcur sl h
        · rw [List.mem_singleton] at h
          subst h
          rfl
      · rw [if_neg h2] at hg
        rcases List.mem_cons.mp hg with rfl | hg
        · exact Or.inl hcur
        · refine ih _ ?_ g hg
          intro sl hsl
          rw [List.mem_singleton] at hsl
          subst hsl
          rfl
    · rw [if_neg h1] at hg
      rw [List.mem_append, List.mem_append] at hg
      rcases hg with (hg | hg) | hg
      · split at hg
        · cases hg
        · rw [List.mem_singleton] at hg
          subst hg
          exact Or.inl hcur
      · rw [List.mem_map] at hg
        obtain ⟨sl, _, rfl⟩ := hg
        exact Or.inr ⟨sl, rfl⟩
      · exact ih [] (by simp) g hg

theorem markLast_map_slices (gs : List (List Slice)) :
    (markLast gs).map Chunk.slices = gs := by
  induction gs with
  | nil => rfl
  | cons g tl ih =>
    cases tl with
    | nil => rfl
    | cons g2 gs2 =>
      rw [markLast]
      simp only [List.map_cons]
      rw [ih]

theorem markLast_length (gs : List (List Slice)) :
    (markLast gs).length = gs.length := by
  conv_rhs => rw [← markLast_map_slices gs]
  rw [List.length_map]

theorem markLast_map_isLast (gs : List (List Slice)) (h : gs ≠ []) :
    (markLast gs).map Chunk.isLastChunk =
      List.replicate (gs.length - 1) false ++ [true] := by
  induction gs with
  | nil => exact absurd rfl h
  | cons g tl ih =>
    cases tl with
    | nil => rfl
    | cons g2 gs2 =>
      rw [markLast]
      simp only [List.map_cons]
      rw [ih (by simp)]
      simp [List.replicate_succ]

/-- C2: the `ReadBuffers` chunk stream of a drained session: reassembling
the whole slice stream by the `isLastSliceOfPacket` flags yields exactly the
drained packets in order (so slices are emitted in packet order, no chunk
interleaves two packets, each packet occupies consecutive chunks, and the
flag sits exactly on each packet's true final slice); every chunk's total
slice payload respects the size ceiling; a slice that is not a packet's
final slice (a piece of an oversized packet) always sits alone in its
chunk; and the finite sequence carries `isLastChunk = true` exactly on its
final chunk. -/
theorem readBuffers_chunk_contract (ceil : Nat) (pkts : List (List Nat))
    (hc : 0 < ceil) :
    packetsOfSlices (allSlices (drain ceil pkts)) = pkts ∧
    (∀ c ∈ drain ceil pkts, payload c.slices ≤ ceil) ∧
    (drain ceil pkts).map Chunk.isLastChunk =
      List.replicate ((drain ceil pkts).length - 1) false ++ [true] ∧
    (∀ c ∈ drain ceil pkts, ∀ sl ∈ c.slices,
      sl.lastSliceForPacket = false → c.slices = [sl]) := by
  refine ⟨?_, ?_, ?_, ?_⟩
  · unfold packetsOfSlices allSlices drain
    cases hd : drainAux ceil [] pkts with
    | nil =>
      have hflat := drainAux_flatten ceil pkts []
      rw [hd] at hflat
      simp only [List.flatten_nil, List.nil_append] at hflat
      have hpkts : pkts = [] := by
        cases hp : pkts with
        | nil => rfl
        | cons p r =>
          exfalso
          rw [hp] at hflat
          simp only [List.map_cons, List.flatten_cons] at hflat
          cases hsp : splitPacket ceil p with
          | nil => exact splitPacket_ne_nil ceil p hsp
          | cons a b =>
            rw [hsp] at hflat
            cases hflat
      subst hpkts
      rfl
    | cons g gs =>
      have hflat := drainAux_flatten ceil pkts []
      rw [hd, List.nil_append] at hflat
      show packetsFrom [] (((markLast (g :: gs)).map Chunk.slices).flatten) = pkts
      rw [markLast_map_slices, hflat]
      exact packetsFrom_flatten_splits ceil pkts
  · intro c hcm
    unfold drain at hcm
    cases hd : drainAux ceil [] pkts with
    | nil =>
      rw [hd] at hcm
      have hcm2 : c ∈ [Chunk.mk [] true] := hcm
      rw [List.mem_singleton] at hcm2
      subst hcm2
      simp [payload]
    | cons g gs =>
      rw [hd] at hcm
      have hcm2 : c ∈ markLast (g :: gs) := hcm
      have hmem : c.slices ∈ (markLast (g :: gs)).map Chunk.slices :=
        List.mem_map_of_mem _ hcm2
      rw [markLast_map_slices, ← hd] at hmem
      exact drainAux_payload_le ceil hc pkts [] (by simp [payload]) c.slices hmem
  · unfold drain
    cases hd : drainAux ceil [] pkts with
    | nil => rfl
    | cons g gs =>
      show (markLast (g :: gs)).map Chunk.isLastChunk =
        List.replicate ((markLast (g :: gs)).length - 1) false ++ [true]
      rw [markLast_length]
      exact markLast_map_isLast (g :: gs) (by simp)
  · intro c hcm sl hsl hflag
    unfold drain at hcm
    cases hd : drainAux ceil [] pkts with
    | nil =>
      rw [hd] at hcm
      have hcm2 : c ∈ [Chunk.mk [] true] := hcm
      rw [List.mem_singleton] at hcm2
      subst hcm2
      cases hsl
    | cons g gs =>
      rw [hd] at hcm
      have hcm2 : c ∈ markLast (g :: gs) := hcm
      have hmem : c.slices ∈ (markLast (g :: gs)).map Chunk.slices :=
        List.mem_map_of_mem _ hcm2
      rw [markLast_map_slices, ← hd] at hmem
      rcases drainAux_unflagged_singleton ceil pkts [] (by simp) c.slices hmem
        with hall | ⟨s0, hs0⟩
      · rw [hall sl hsl] at hflag
        cases hflag
      · rw [hs0] at hsl ⊢
        rw [List.mem_singleton] at hsl
        subst hsl
        rfl

/-- Witness for C2 at ceiling 3: two small packets and one oversized packet
reassemble exactly from the drained chunk stream. -/
theorem readBuffers_chunk_contract_witness :
    0 < 3 ∧
    packetsOfSlices (allSlices (drain 3 [[1, 2], [3, 4, 5, 6, 7], [8]])) =
      [[1, 2], [3, 4, 5, 6, 7], [8]] :=
  ⟨by decide,
   (readBuffers_chunk_contract 3 [[1, 2], [3, 4, 5, 6, 7], [8]] (by decide)).1⟩

end Perfetto

